import Mathlib

/-!
# File Axiom — bulk-operation engine: shallow embedding and verification

This file embeds the core of the `file-axiom` VS Code extension — the
bulk-operation transaction engine of `fileOperations.ts`
(`performBulkOperations`, `findFiles`, `transformPath`) — as executable
Lean definitions, and proves/refutes the specification claims about it.

Conventions of the embedding:
* JavaScript strings are modelled by `String`; the JS string methods the
  source uses (`endsWith`, `includes`, `trim`, template interpolation and
  the two `replace` calls with regular expressions) are modelled by
  explicit functions on `String.data` (lists of characters).
* `vscode.Uri` values are modelled by their path `String`.
* All I/O capabilities (workspace state, `findFiles` results, `fs.stat`,
  `fs.delete`, `fs.copy`, the rename provider, `applyEdit`) are an
  explicit `Env` record of oracles; the mutations the engine performs are
  returned as an explicit `Effect` trace.
-/

namespace FileAxiom

/-! ## JS string primitives -/

/-- JS `s.endsWith(suffix)`. -/
def jsEndsWith (s suffix : String) : Bool :=
  List.isSuffixOf suffix.data s.data

/-- JS `s.includes(c)` for a one-character search string `c`. -/
def jsIncludesChar (s : String) (c : Char) : Bool :=
  s.data.contains c

/-- JS `!s || s.trim().length === 0`: the string is empty or whitespace-only. -/
def jsIsBlank (s : String) : Bool :=
  s.data.all Char.isWhitespace

/-! ## A small JS-regex engine

`transformPath` builds `new RegExp('\\.' + sourceExt + '$')` from a
pattern-derived string and calls `String.replace` with it (non-global:
first match only).  We model the fragment of JS regex syntax that such a
pattern string can meaningfully contain: literal characters, punctuation
escapes `\x`, the wildcard `.`, the quantifiers `*`, `+`, `?` on the
previous atom, and the anchors `^`/`$`.  On any construct outside this
fragment (character classes, groups, alternation, `\w`-style class
escapes, doubled quantifiers — on which `new RegExp` mostly throws) the
parser returns `none` and the modelled replace is the identity. -/

/-- A single-character regex atom: a literal character or `.` (any). -/
inductive RAtom where
  | lit (c : Char)
  | any
deriving DecidableEq, Repr

/-- A compiled regex token. `star a` is greedy `a*`; `quest a` is greedy
`a?`; `+` is desugared to an atom followed by its star. -/
inductive RTok where
  | atom (a : RAtom)
  | star (a : RAtom)
  | quest (a : RAtom)
  | startAnchor
  | endAnchor
deriving DecidableEq, Repr

/-- Does atom `a` match character `d`? (`.` matches any character; JS's
"not a line terminator" caveat is irrelevant for file paths.) -/
def ratomMatch (a : RAtom) (d : Char) : Bool :=
  match a with
  | .lit c => d = c
  | .any => true

/-- Is `c` one of the JS regex quantifier characters? -/
def isQuantChar (c : Char) : Bool :=
  c = '*' || c = '+' || c = '?'

/-- Does the character list start with a quantifier character?  Used to
reject doubled quantifiers (`**`, `*+`, lazy `*?`, …), on which JS either
errors or leaves our fragment. -/
def headIsQuant : List Char → Bool
  | [] => false
  | c :: _ => isQuantChar c

/-- Characters that start regex constructs outside the modelled fragment. -/
def unsupportedRegexChar (c : Char) : Bool :=
  c = '[' || c = ']' || c = '(' || c = ')' || c = '{' || c = '}' || c = '|'

/-- Escapes `\c` are modelled only for non-alphanumeric `c` (where JS
reads them as the literal character); `\w`, `\d`, `\b`, … leave the
fragment. -/
def supportedEscape (c : Char) : Bool :=
  !(c.isAlphanum)

/-- Parse a JS regex source (as a character list) into tokens, or `none`
if it leaves the modelled fragment. -/
def parseRegex : List Char → Option (List RTok)
  | [] => some []
  | '^' :: rest =>
    if headIsQuant rest then none
    else (parseRegex rest).map (fun ts => .startAnchor :: ts)
  | '$' :: rest =>
    if headIsQuant rest then none
    else (parseRegex rest).map (fun ts => .endAnchor :: ts)
  | '*' :: _ => none   -- nothing to repeat
  | '+' :: _ => none
  | '?' :: _ => none
  | '\\' :: c :: '*' :: rest =>
    if supportedEscape c && !headIsQuant rest then
      (parseRegex rest).map (fun ts => .star (.lit c) :: ts)
    else none
  | '\\' :: c :: '+' :: rest =>
    if supportedEscape c && !headIsQuant rest then
      (parseRegex rest).map (fun ts => .atom (.lit c) :: .star (.lit c) :: ts)
    else none
  | '\\' :: c :: '?' :: rest =>
    if supportedEscape c && !headIsQuant rest then
      (parseRegex rest).map (fun ts => .quest (.lit c) :: ts)
    else none
  | '\\' :: c :: rest =>
    if supportedEscape c then
      (parseRegex rest).map (fun ts => .atom (.lit c) :: ts)
    else none
  | '\\' :: [] => none
  | '.' :: '*' :: rest =>
    if headIsQuant rest then none
    else (parseRegex rest).map (fun ts => .star .any :: ts)
  | '.' :: '+' :: rest =>
    if headIsQuant rest then none
    else (parseRegex rest).map (fun ts => .atom .any :: .star .any :: ts)
  | '.' :: '?' :: rest =>
    if headIsQuant rest then none
    else (parseRegex rest).map (fun ts => .quest .any :: ts)
  | '.' :: rest => (parseRegex rest).map (fun ts => .atom .any :: ts)
  | c :: '*' :: rest =>
    if unsupportedRegexChar c then none
    else if headIsQuant rest then none
    else (parseRegex rest).map (fun ts => .star (.lit c) :: ts)
  | c :: '+' :: rest =>
    if unsupportedRegexChar c then none
    else if headIsQuant rest then none
    else (parseRegex rest).map (fun ts => .atom (.lit c) :: .star (.lit c) :: ts)
  | c :: '?' :: rest =>
    if unsupportedRegexChar c then none
    else if headIsQuant rest then none
    else (parseRegex rest).map (fun ts => .quest (.lit c) :: ts)
  | c :: rest =>
    if unsupportedRegexChar c then none
    else (parseRegex rest).map (fun ts => .atom (.lit c) :: ts)

/-- Backtracking matcher, following the JS engine's greedy search order.
Returns the input remaining after the first match found at the current
position, or `none`.  `^` fails here because in the patterns we model it
can only occur after at least one consumed atom (the pattern always
starts with `\.`), where JS's non-multiline `^` cannot match.
Structural recursion on an explicit fuel keeps the function
kernel-reducible; each recursive call strictly decreases
`tokens.length + input.length`, so the fuel `reMatch` supplies is never
exhausted. -/
def reMatchF : Nat → List RTok → List Char → Option (List Char)
  | 0, _, _ => none
  | _ + 1, [], input => some input
  | _ + 1, .startAnchor :: _, _ => none
  | fuel + 1, .endAnchor :: ts, input =>
    match input with
    | [] => reMatchF fuel ts []
    | _ :: _ => none
  | _ + 1, .atom _ :: _, [] => none
  | fuel + 1, .atom a :: ts, d :: rest =>
    if ratomMatch a d then reMatchF fuel ts rest else none
  | fuel + 1, .star _ :: ts, [] => reMatchF fuel ts []
  | fuel + 1, .star a :: ts, d :: rest =>
    if ratomMatch a d then
      (reMatchF fuel (.star a :: ts) rest).orElse (fun _ => reMatchF fuel ts (d :: rest))
    else reMatchF fuel ts (d :: rest)
  | fuel + 1, .quest _ :: ts, [] => reMatchF fuel ts []
  | fuel + 1, .quest a :: ts, d :: rest =>
    if ratomMatch a d then
      (reMatchF fuel ts rest).orElse (fun _ => reMatchF fuel ts (d :: rest))
    else reMatchF fuel ts (d :: rest)

/-- The matcher `reMatch toks input` with sufficient fuel. -/
def reMatch (toks : List RTok) (input : List Char) : Option (List Char) :=
  reMatchF (toks.length + input.length + 1) toks input

/-- Leftmost match search: try `reMatch` at each start position from left
to right.  Returns `(prefix, matched, suffix)` of the first match. -/
def reSearch (toks : List RTok) :
    List Char → List Char → Option (List Char × List Char × List Char)
  | pre, input =>
    match reMatch toks input with
    | some rest =>
      some (pre.reverse, input.take (input.length - rest.length), rest)
    | none =>
      match input with
      | [] => none
      | d :: tl => reSearch toks (d :: pre) tl

/-- JS `s.replace(new RegExp(pattern), replacement)` for a non-global
regex in the modelled fragment: replace the leftmost match; identity when
there is no match or the pattern leaves the fragment. -/
def jsReplaceRegex (pattern replacement s : String) : String :=
  match parseRegex pattern.data with
  | none => s
  | some toks =>
    match reSearch toks [] s.data with
    | none => s
    | some (pre, _, suf) => ⟨pre ++ replacement.data ++ suf⟩

/-! ## The fixed prefix-stripping regex

`transformPath` derives the "extension" of a glob with
`pattern.replace(/^\*+[\\/]*\*+\./, '')`: strip a leading run of `*`s,
an optional run of slashes/backslashes, another run of `*`s and a dot.
The character class keeps this regex outside the engine above, so the
(backtracking) match condition is modelled directly: the anchored pattern
matches iff either the leading `*`-run (length ≥ 1) is followed by ≥ 1
slashes, then ≥ 1 `*`s, then `.` — or there are ≥ 2 leading `*`s
immediately followed by `.` (the two `\*+` groups split the run). -/

/-- Split a leading run of characters satisfying `p` off a list. -/
def takeRun (p : Char → Bool) : List Char → List Char × List Char
  | [] => ([], [])
  | c :: rest =>
    if p c then
      let (run, rem) := takeRun p rest
      (c :: run, rem)
    else ([], c :: rest)

/-- Model of `pattern.replace(/^\*+[\\/]*\*+\./, '')`. -/
def stripExtPrefix (s : String) : String :=
  let (stars, rest1) := takeRun (fun c => c = '*') s.data
  if stars.isEmpty then s
  else
    let (slashes, rest2) := takeRun (fun c => c = '/' || c = '\\') rest1
    if slashes.isEmpty then
      -- `\*+[\\/]*\*+\.` with the slash group empty: needs ≥ 2 stars, then '.'
      match rest1 with
      | '.' :: tail => if 2 ≤ stars.length then ⟨tail⟩ else s
      | _ => s
    else
      let (stars2, rest3) := takeRun (fun c => c = '*') rest2
      if stars2.isEmpty then s
      else
        match rest3 with
        | '.' :: tail => ⟨tail⟩
        | _ => s

/-! ## `transformPath` -/

/-- Shallow embedding of `transformPath` (`fileOperations.ts`):

```js
function transformPath(filePath, sourcePattern, targetPattern) {
  if (sourcePattern.endsWith('*') && targetPattern.endsWith('*')) {
    const sourceExt = sourcePattern.replace(/^\*+[\\/]*\*+\./, '');
    const targetExt = targetPattern.replace(/^\*+[\\/]*\*+\./, '');
    if (filePath.endsWith(`.${sourceExt}`)) {
      return filePath.replace(new RegExp(`\\.${sourceExt}$`), `.${targetExt}`);
    }
  }
  return filePath;
}
``` -/
def transformPath (filePath sourcePattern targetPattern : String) : String :=
  if jsEndsWith sourcePattern "*" && jsEndsWith targetPattern "*" then
    let sourceExt := stripExtPrefix sourcePattern
    let targetExt := stripExtPrefix targetPattern
    if jsEndsWith filePath ("." ++ sourceExt) then
      jsReplaceRegex ("\\." ++ sourceExt ++ "$") ("." ++ targetExt) filePath
    else filePath
  else filePath

/-! ## Path helpers used by the engine -/

/-- Model of `vscode.Uri.joinPath(root, p)` for the plain relative paths the engine
joins (no `.`/`..` normalization is ever needed by the claims). -/
def joinPath (root p : String) : String :=
  root ++ "/" ++ p

/-- Keep the part after the last `/` or `\`: JS
`s.replace(/^.*[\\/]/, '')` (greedy `.*` backtracks to the last slash;
identity when there is no slash). -/
def afterLastSlash (s : String) : String :=
  ⟨(s.data.reverse.takeWhile (fun c => !(c = '/' || c = '\\'))).reverse⟩

/-- JS `\w`: ASCII letters, digits and underscore. -/
def isWordChar (c : Char) : Bool :=
  c.isAlphanum || c = '_'

/-- JS `s.replace(/\.\w+$/, '')`: drop a final `.ext` whose `ext` is one
or more word characters (the match, if any, is at the last dot). -/
def dropTrailingExt (s : String) : String :=
  let rev := s.data.reverse
  let (w, rest) := takeRun isWordChar rev
  match w, rest with
  | _ :: _, '.' :: tail => ⟨tail.reverse⟩
  | _, _ => s

/-- The new base identifier a rename asks the rename provider for:
`target.replace(/^.*[\\/]/, '').replace(/\.\w+$/, '')`. -/
def basenameNoExt (target : String) : String :=
  dropTrailingExt (afterLastSlash target)

/-! ## Data model -/

/-- Error codes `FileAxiomErrorCode` (`types.ts`). -/
inductive FileAxiomErrorCode where
  | FILE_NOT_FOUND
  | ALREADY_EXISTS
  | PERMISSION_DENIED
  | UNTRUSTED
  | EDIT_REJECTED
  | NO_WORKSPACE
  | INVALID_INPUT
deriving DecidableEq, Repr

/-- Typed error `FileAxiomError` (`types.ts`): carries a user-facing
message. -/
structure FileAxiomError where
  message : String
  code : FileAxiomErrorCode
deriving DecidableEq, Repr

/-- A thrown JS exception: either a typed `FileAxiomError` or any other
runtime error (`TypeError`s from `undefined` field accesses, re-thrown
filesystem errors), carried by message. -/
inductive JSError where
  | axiomErr (e : FileAxiomError)
  | other (msg : String)
deriving DecidableEq, Repr

/-- Params of a `BulkAction`: optional fields, `none` modelling JS
`undefined`. -/
structure BulkParams where
  source : Option String := none
  target : Option String := none
  path : Option String := none
deriving DecidableEq, Repr

/-- Action `BulkAction` (`types.ts`): duck-typed `type` string plus params. -/
structure BulkAction where
  type : String
  params : BulkParams
deriving DecidableEq, Repr

/-- An expanded action: `BulkAction & {resolvedSource?, resolvedTarget?}`. -/
structure ExpandedAction where
  type : String
  params : BulkParams
  resolvedSource : Option String := none
  resolvedTarget : Option String := none
deriving DecidableEq, Repr

/-- One `operations[]` entry of a `BulkOperationResult`. -/
structure BulkOperationRecord where
  type : String
  source : Option String := none
  target : Option String := none
  success : Bool
  error : Option String := none
deriving DecidableEq, Repr

/-- Result summary `BulkOperationResult` (`types.ts`). -/
structure BulkOperationResult where
  successCount : Nat
  failedCount : Nat
  totalReferencesUpdated : Nat
  operations : List BulkOperationRecord
deriving DecidableEq, Repr

/-- One edit inside a returned `vscode.WorkspaceEdit` from the rename
provider: a `(range, newText)` pair; both are opaque to the engine. -/
structure TextEdit where
  range : String
  newText : String
deriving DecidableEq, Repr

/-- A rename provider's `WorkspaceEdit`: entries of per-file text edits. -/
abbrev RefEditSet := List (String × List TextEdit)

/-- An operation recorded into the engine's shared `WorkspaceEdit`. -/
inductive EditOp where
  | renameFile (src tgt : String)
  | replace (uri range newText : String)
deriving DecidableEq, Repr

/-- A mutation performed by the engine: an immediate (trash) delete, an
immediate copy, or the accepted final `applyEdit` commit.  An attempted
but rejected commit mutates nothing and produces no effect. -/
inductive Effect where
  | deleteFile (path : String)
  | copyFile (src tgt : String)
  | applyEdit (batch : List EditOp)
deriving DecidableEq, Repr

/-- Outcome of a `vscode.workspace.fs.stat` call. -/
inductive StatR where
  | found
  | notFound
  | failure (msg : String)
deriving DecidableEq, Repr

/-- The injected capabilities and ambient VS Code state the engine reads.
`findFilesRaw` is `vscode.workspace.findFiles(pattern, '**/node_modules/**',
maxResults)` (unsorted); `stat` is the validation-phase filesystem;
`deleteOutcome`/`copyOutcome` are the execution-phase outcomes (`none` =
success, `some msg` = the exception's message), which lets races between
validation and execution be expressed; `renameProvider src newName` is
the collected reference edits (`none` = unavailable or threw). -/
structure Env where
  isTrusted : Bool
  workspaceFolders : List String
  findFilesRaw : String → Nat → List String
  asRelativePath : String → String
  stat : String → StatR
  deleteOutcome : String → Option String
  copyOutcome : String → String → Option String
  renameProvider : String → String → Option RefEditSet
  applyEditOk : Bool

/-! ## JS truthiness helpers -/

/-- JS truthiness of a possibly-`undefined` string: `undefined` and `''`
are falsy. -/
def jsTruthy : Option String → Bool
  | none => false
  | some s => s ≠ ""

/-- JS `a || b` on possibly-`undefined` strings. -/
def jsOrVal (a b : Option String) : Option String :=
  if jsTruthy a then a else b

/-- JS template interpolation `${x}` of a possibly-`undefined` string. -/
def jsTemplate : Option String → String
  | some s => s
  | none => "undefined"

/-! ## `findFiles` -/

/-- Lexicographic comparison of character lists by character code. -/
def pathLeData : List Char → List Char → Bool
  | [], _ => true
  | _ :: _, [] => false
  | c :: cs, d :: ds =>
    if c = d then pathLeData cs ds
    else decide (c.toNat < d.toNat)

/-- The comparator of `findFiles`' sort,
`(a, b) => a.fsPath.localeCompare(b.fsPath)`: `localeCompare` is
modelled as the plain lexicographic order on path strings. -/
def pathLe (a b : String) : Bool :=
  pathLeData a.data b.data

/-- Shallow embedding of `findFiles` (`fileOperations.ts`): reject blank
patterns (`INVALID_INPUT`), require a workspace root (`NO_WORKSPACE`),
then query and sort by `pathLe`. -/
def findFiles (env : Env) (pattern : String) (maxResults : Nat) :
    Except FileAxiomError (List String) :=
  if jsIsBlank pattern then
    .error ⟨"Search pattern must not be empty.", .INVALID_INPUT⟩
  else
    match env.workspaceFolders with
    | [] => .error ⟨"No workspace folder is open. Open a folder first.", .NO_WORKSPACE⟩
    | _ :: _ =>
      .ok (List.insertionSort (fun a b => pathLe a b = true)
        (env.findFilesRaw pattern maxResults))

/-! ## Phase 1: expansion -/

/-- The call `transformPath(relativePath, source, action.params.target!)`
with a possibly-`undefined` target: when `target` is `undefined`, JS
throws a `TypeError` only if `transformPath` actually evaluates
`targetPattern.endsWith('*')`, i.e. only when `source` ends in `*`
(otherwise the `&&` short-circuits and the path is returned unchanged,
which is what `transformPath` returns for any `targetPattern`). -/
def jsTransformTarget (target : Option String) (relativePath source : String) :
    Except JSError String :=
  match target with
  | some t => .ok (transformPath relativePath source t)
  | none =>
    if jsEndsWith source "*" then
      .error (.other "TypeError: Cannot read properties of undefined (reading 'endsWith')")
    else .ok relativePath

/-- The per-match loop body of wildcard rename/move/duplicate expansion. -/
def expandMatches (env : Env) (root ty source : String) (target : Option String) :
    List String → Except JSError (List ExpandedAction)
  | [] => .ok []
  | uri :: rest =>
    let relativePath := env.asRelativePath uri
    match jsTransformTarget target relativePath source with
    | .error e => .error e
    | .ok newTarget =>
      match expandMatches env root ty source target rest with
      | .error e => .error e
      | .ok tail =>
        .ok ({ type := ty,
               params := { source := some relativePath, target := some newTarget },
               resolvedSource := some uri,
               resolvedTarget := some (joinPath root newTarget) } :: tail)

/-- Expansion of a single `BulkAction` (the body of the Phase 1 loop of
`performBulkOperations`).  Delete actions with a falsy `path`, and
actions of any type other than delete/rename/move/duplicate, match no
branch and expand to nothing. -/
def expandOne (env : Env) (root : String) (action : BulkAction) :
    Except JSError (List ExpandedAction) :=
  if action.type = "delete" && jsTruthy action.params.path then
    let p := action.params.path.getD ""
    if jsIncludesChar p '*' || jsIncludesChar p '?' then
      match findFiles env p 1000 with
      | .error e => .error (.axiomErr e)
      | .ok matchedFiles =>
        .ok (matchedFiles.map (fun uri =>
          { type := "delete",
            params := { path := some (env.asRelativePath uri) },
            resolvedSource := some uri }))
    else
      .ok [{ type := action.type, params := action.params,
             resolvedSource := some (joinPath root p) }]
  else if action.type = "rename" || action.type = "move" || action.type = "duplicate" then
    match action.params.source with
    | none =>
      -- JS: `action.params.source!` is undefined, `source.includes('*')` throws
      .error (.other "TypeError: Cannot read properties of undefined (reading 'includes')")
    | some source =>
      if jsIncludesChar source '*' || jsIncludesChar source '?' then
        match findFiles env source 1000 with
        | .error e => .error (.axiomErr e)
        | .ok matchedFiles => expandMatches env root action.type source action.params.target matchedFiles
      else
        match action.params.target with
        | none =>
          -- JS: `vscode.Uri.joinPath(root, undefined)` throws
          .error (.other "TypeError: Cannot read properties of undefined (reading 'joinPath')")
        | some target =>
          .ok [{ type := action.type, params := action.params,
                 resolvedSource := some (joinPath root source),
                 resolvedTarget := some (joinPath root target) }]
  else .ok []

/-- Phase 1 of `performBulkOperations`: expand every action in order. -/
def expandActions (env : Env) (root : String) :
    List BulkAction → Except JSError (List ExpandedAction)
  | [] => .ok []
  | a :: rest =>
    match expandOne env root a with
    | .error e => .error e
    | .ok exp1 =>
      match expandActions env root rest with
      | .error e => .error e
      | .ok exps => .ok (exp1 ++ exps)

/-! ## Phase 2: validation -/

/-- The second validation block of the Phase 2 loop body: for
rename/move/duplicate the resolved target must *not* exist —
`ALREADY_EXISTS` if it does.  A stat failure other than FileNotFound is
re-thrown as-is. -/
def validateTarget (env : Env) (action : ExpandedAction) : Option JSError :=
  if (action.type = "rename" || action.type = "move" || action.type = "duplicate") then
    match action.resolvedTarget with
    | some tgt =>
      match env.stat tgt with
      | .found =>
        some (.axiomErr ⟨"Target already exists: " ++ jsTemplate action.params.target ++
          ". Aborting entire batch to prevent overwrites.", .ALREADY_EXISTS⟩)
      | .notFound => none
      | .failure msg => some (.other msg)
    | none => none
  else none

/-- Validation of a single expanded action (the Phase 2 loop body): the
source (when resolved) must exist — `FILE_NOT_FOUND` otherwise — and
then the target check runs. -/
def validateOne (env : Env) (action : ExpandedAction) : Option JSError :=
  match action.resolvedSource with
  | some src =>
    match env.stat src with
    | .found => validateTarget env action
    | .notFound =>
      some (.axiomErr ⟨"Source file not found: " ++
        jsTemplate (jsOrVal action.params.source action.params.path) ++
        ". Aborting entire batch.", .FILE_NOT_FOUND⟩)
    | .failure msg => some (.other msg)
  | none => validateTarget env action

/-- Phase 2 of `performBulkOperations`: the first validation error over
the whole expanded batch, before any effect. -/
def validateActions (env : Env) : List ExpandedAction → Option JSError
  | [] => none
  | a :: rest =>
    match validateOne env a with
    | some e => some e
    | none => validateActions env rest

/-! ## Phase 3: reference collection -/

/-- The outcome of one reference-collection promise: open the document,
derive the new basename from `params.target`, ask the rename provider;
any throw (including a missing target) is caught and becomes
`undefined`. -/
def collectRefOutcome (env : Env) (a : ExpandedAction) : Option RefEditSet :=
  match a.resolvedSource, a.params.target with
  | some src, some t => env.renameProvider src (basenameNoExt t)
  | _, _ => none

/-- Phase 3 of `performBulkOperations`: one promise per rename/move
action with both paths resolved, in batch order. -/
def collectRefs (env : Env) : List ExpandedAction → List (Option RefEditSet)
  | [] => []
  | a :: rest =>
    if (a.type = "rename" || a.type = "move") && a.resolvedSource.isSome && a.resolvedTarget.isSome then
      collectRefOutcome env a :: collectRefs env rest
    else collectRefs env rest

/-! ## Phase 4: build loop (immediate deletes/duplicates, shared edit) -/

/-- Number of individual text edits in a reference edit-set; each one
increments `totalReferencesUpdated`. -/
def refEditCount (r : RefEditSet) : Nat :=
  (r.map (fun e => e.2.length)).sum

/-- The `edit.replace` operations merged into the shared batch for one
reference edit-set, in entry order. -/
def refEditOps (r : RefEditSet) : List EditOp :=
  r.flatMap (fun e => e.2.map (fun te => .replace e.1 te.range te.newText))

/-- The failed-operation record pushed by the Phase 4 `catch`. -/
def recordFailure (a : ExpandedAction) (msg : String) : BulkOperationRecord :=
  { type := a.type, source := jsOrVal a.params.source a.params.path,
    target := a.params.target, success := false, error := some msg }

/-- Append a failure record and bump `failedCount`. -/
def addFailure (r : BulkOperationResult) (a : ExpandedAction) (msg : String) :
    BulkOperationResult :=
  { r with operations := r.operations ++ [recordFailure a msg],
           failedCount := r.failedCount + 1 }

/-- Model of `referenceEdits[refIndex++]`: out-of-range indexing yields
`undefined`. -/
def popRef : List (Option RefEditSet) → Option RefEditSet × List (Option RefEditSet)
  | [] => (none, [])
  | r :: rest => (r, rest)

/-- State threaded through the Phase 4 loop: the accumulating result, the
shared `WorkspaceEdit`, the mutations performed so far, and the not yet
consumed reference-edit results. -/
structure BuildState where
  result : BulkOperationResult
  edit : List EditOp
  effects : List Effect
  refs : List (Option RefEditSet)
deriving Repr

/-- One iteration of the Phase 4 loop of `performBulkOperations`:
deletes and duplicates execute immediately (outside the shared edit) and
their exceptions are caught into a failure record; renames/moves are
appended to the shared edit together with their reference edits and
always record success here.  An action matching no branch contributes
nothing. -/
def buildStep (env : Env) (st : BuildState) (action : ExpandedAction) : BuildState :=
  if action.type = "delete" && action.resolvedSource.isSome then
    match action.resolvedSource with
    | some src =>
      match env.deleteOutcome src with
      | none =>
        { st with
          effects := st.effects ++ [.deleteFile src],
          result := { st.result with
            operations := st.result.operations ++
              [{ type := "delete", source := action.params.path, success := true }],
            successCount := st.result.successCount + 1 } }
      | some msg => { st with result := addFailure st.result action msg }
    | none => st
  else if (action.type = "rename" || action.type = "move") &&
      action.resolvedSource.isSome && action.resolvedTarget.isSome then
    match action.resolvedSource, action.resolvedTarget with
    | some src, some tgt =>
      let (refEdit, refsTail) := popRef st.refs
      let merged := match refEdit with | some r => refEditOps r | none => []
      let cnt := match refEdit with | some r => refEditCount r | none => 0
      { st with
        edit := st.edit ++ [EditOp.renameFile src tgt] ++ merged,
        refs := refsTail,
        result := { st.result with
          operations := st.result.operations ++
            [{ type := action.type, source := action.params.source,
               target := action.params.target, success := true }],
          successCount := st.result.successCount + 1,
          totalReferencesUpdated := st.result.totalReferencesUpdated + cnt } }
    | _, _ => st
  else if action.type = "duplicate" && action.resolvedSource.isSome &&
      action.resolvedTarget.isSome then
    match action.resolvedSource, action.resolvedTarget with
    | some src, some tgt =>
      match env.copyOutcome src tgt with
      | none =>
        { st with
          effects := st.effects ++ [.copyFile src tgt],
          result := { st.result with
            operations := st.result.operations ++
              [{ type := "duplicate", source := action.params.source,
                 target := action.params.target, success := true }],
            successCount := st.result.successCount + 1 } }
      | some msg => { st with result := addFailure st.result action msg }
    | _, _ => st
  else st

/-- The empty `BulkOperationResult` the engine starts from. -/
def emptyResult : BulkOperationResult :=
  ⟨0, 0, 0, []⟩

/-- Phase 4 of `performBulkOperations` as a fold over the expanded batch. -/
def buildPhase (env : Env) (exp : List ExpandedAction)
    (refs : List (Option RefEditSet)) : BuildState :=
  exp.foldl (buildStep env) ⟨emptyResult, [], [], refs⟩

/-! ## The orchestrator -/

/-- Shallow embedding of `performBulkOperations` (`fileOperations.ts`).
Returns the result (or the thrown error) together with the trace of
mutations performed.  Phases: trust/workspace guards → expansion →
empty-expansion guard → validation → reference collection → build loop
(immediate deletes/duplicates) → final `applyEdit` of the shared batch,
`EDIT_REJECTED` if refused. -/
def performBulkOperations (env : Env) (actions : List BulkAction) :
    Except JSError BulkOperationResult × List Effect :=
  if !env.isTrusted then
    (.error (.axiomErr ⟨"Workspace is not trusted. Cannot perform bulk operations in Restricted Mode.",
      .UNTRUSTED⟩), [])
  else
    match env.workspaceFolders with
    | [] => (.error (.axiomErr ⟨"No workspace folder is open.", .NO_WORKSPACE⟩), [])
    | root :: _ =>
      match expandActions env root actions with
      | .error e => (.error e, [])
      | .ok expandedActions =>
        if expandedActions.isEmpty then
          (.error (.axiomErr ⟨"No files matched the specified patterns.", .FILE_NOT_FOUND⟩), [])
        else
          match validateActions env expandedActions with
          | some e => (.error e, [])
          | none =>
            let referenceEdits := collectRefs env expandedActions
            let st := buildPhase env expandedActions referenceEdits
            if env.applyEditOk then
              (.ok st.result, st.effects ++ [.applyEdit st.edit])
            else
              (.error (.axiomErr ⟨"WorkspaceEdit was rejected by VS Code. Some files may be read-only.",
                .EDIT_REJECTED⟩), st.effects)

/-! ## Statement-side characterizations

The following definitions are used only to *state* properties of the
engine; each mirrors a branch structure of the definitions above. -/

/-- A validation violation of the source kind: the action has a resolved
source that the validation-time filesystem reports missing. -/
def sourceMissing (env : Env) (a : ExpandedAction) : Bool :=
  match a.resolvedSource with
  | some s => match env.stat s with | .notFound => true | _ => false
  | none => false

/-- A validation violation of the target kind: a rename/move/duplicate
action whose resolved target already exists. -/
def targetTaken (env : Env) (a : ExpandedAction) : Bool :=
  (a.type = "rename" || a.type = "move" || a.type = "duplicate") &&
  (match a.resolvedTarget with
   | some t => match env.stat t with | .found => true | _ => false
   | none => false)

/-- An input action that matches no branch of the expansion loop: not a
delete with a truthy `path`, and not a rename/move/duplicate. -/
def isSkippedAction (a : BulkAction) : Bool :=
  !(a.type = "delete" && jsTruthy a.params.path) &&
  !(a.type = "rename" || a.type = "move" || a.type = "duplicate")

/-- An expanded action that matches one of the three branches of the
Phase 4 loop (and hence contributes exactly one operations entry). -/
def hitsBranch (a : ExpandedAction) : Bool :=
  (a.type = "delete" && a.resolvedSource.isSome) ||
  ((a.type = "rename" || a.type = "move") && a.resolvedSource.isSome && a.resolvedTarget.isSome) ||
  (a.type = "duplicate" && a.resolvedSource.isSome && a.resolvedTarget.isSome)

/-- The immediate (pre-commit) mutations one expanded action performs in
the Phase 4 loop: a successful delete or copy; renames/moves only write
to the shared edit batch, so they mutate nothing here. -/
def immediateEffects (env : Env) (a : ExpandedAction) : List Effect :=
  if a.type = "delete" && a.resolvedSource.isSome then
    match a.resolvedSource with
    | some src => match env.deleteOutcome src with | none => [.deleteFile src] | some _ => []
    | none => []
  else if a.type = "duplicate" && a.resolvedSource.isSome && a.resolvedTarget.isSome then
    match a.resolvedSource, a.resolvedTarget with
    | some src, some tgt => match env.copyOutcome src tgt with | none => [.copyFile src tgt] | some _ => []
    | _, _ => []
  else []

/-- A minimal concrete environment for witnesses: trusted, one workspace
folder `/w`, no search results, no files, all operations succeed, no
rename provider, commits accepted. -/
def simpleEnv : Env := {
  isTrusted := true
  workspaceFolders := ["/w"]
  findFilesRaw := fun _ _ => []
  asRelativePath := fun s => s
  stat := fun _ => .notFound
  deleteOutcome := fun _ => none
  copyOutcome := fun _ _ => none
  renameProvider := fun _ _ => none
  applyEditOk := true }

end FileAxiom

/-! ## Theorems -/

namespace FileAxiom

/-- An action hitting no expansion branch expands to nothing and raises
no error. -/
theorem expandOne_skipped (env : Env) (root : String) (a : BulkAction)
    (h : isSkippedAction a = true) : expandOne env root a = .ok [] := by
  have h' := h
  unfold isSkippedAction at h'
  simp only [Bool.and_eq_true, Bool.not_eq_true'] at h'
  obtain ⟨h1, h2⟩ := h'
  unfold expandOne
  rw [h1, h2]
  simp

/-- A batch of actions hitting no expansion branch expands to the empty
batch. -/
theorem expandActions_skipped (env : Env) (root : String) (actions : List BulkAction)
    (h : ∀ a ∈ actions, isSkippedAction a = true) :
    expandActions env root actions = .ok [] := by
  induction actions with
  | nil => rfl
  | cons a rest ih =>
    have ha := expandOne_skipped env root a (h a (List.mem_cons_self a rest))
    have hrest := ih (fun b hb => h b (List.mem_cons_of_mem a hb))
    unfold expandActions
    rw [ha, hrest]
    rfl

end FileAxiom

namespace FileAxiom

/-- C9: during expansion, an action whose type is not one of
delete/rename/move/duplicate, or a delete whose `params.path` is falsy,
is silently skipped (no resolved action, no error of its own); a batch
consisting only of such actions therefore throws `FILE_NOT_FOUND` with
the message "No files matched the specified patterns." even though no
pattern was involved. -/
theorem bulk_unhandled_actions_silently_skipped :
    (∀ (env : Env) (root : String) (a : BulkAction), isSkippedAction a = true →
       expandOne env root a = .ok []) ∧
    (∀ (env : Env) (actions : List BulkAction) (root : String) (rest : List String),
       env.isTrusted = true → env.workspaceFolders = root :: rest →
       (∀ a ∈ actions, isSkippedAction a = true) →
       performBulkOperations env actions =
         (.error (.axiomErr ⟨"No files matched the specified patterns.",
           .FILE_NOT_FOUND⟩), [])) := by
  refine ⟨expandOne_skipped, ?_⟩
  intro env actions root rest ht hw hskip
  have hexp := expandActions_skipped env root actions hskip
  simp [performBulkOperations, ht, hw, hexp]

/-- Witness for C9: an unknown `copy` action and a delete without a path
are both skipped, and a batch of just these two throws `FILE_NOT_FOUND`. -/
theorem bulk_unhandled_actions_silently_skipped_witness :
    expandOne simpleEnv "/w" ⟨"copy", { path := some "a" }⟩ = .ok [] ∧
    performBulkOperations simpleEnv
        [⟨"copy", { path := some "a" }⟩, ⟨"delete", {}⟩] =
      (.error (.axiomErr ⟨"No files matched the specified patterns.",
        .FILE_NOT_FOUND⟩), []) :=
  ⟨bulk_unhandled_actions_silently_skipped.1 simpleEnv "/w" _ (by decide),
   bulk_unhandled_actions_silently_skipped.2 simpleEnv _ "/w" [] rfl rfl (by decide)⟩

end FileAxiom

namespace FileAxiom

/-- C8, counterexample: a batch whose one action has an empty delete
pattern makes `performBulkOperations` throw `FILE_NOT_FOUND` ("No files
matched the specified patterns."), not the claimed `INVALID_INPUT`. -/
theorem bulk_empty_pattern_not_invalid_input :
    performBulkOperations simpleEnv [⟨"delete", { path := some "" }⟩] =
      (.error (.axiomErr ⟨"No files matched the specified patterns.",
        .FILE_NOT_FOUND⟩), []) ∧
    FileAxiomErrorCode.FILE_NOT_FOUND ≠ FileAxiomErrorCode.INVALID_INPUT :=
  ⟨rfl, by decide⟩

end FileAxiom

namespace FileAxiom

/-- C4: whenever expansion yields zero resolved actions, the whole
operation throws `FILE_NOT_FOUND` with the message "No files matched the
specified patterns.", performing no mutation, rather than returning an
empty successful result. -/
theorem bulk_empty_expansion_throws (env : Env) (actions : List BulkAction)
    (root : String) (rest : List String)
    (ht : env.isTrusted = true) (hw : env.workspaceFolders = root :: rest)
    (hexp : expandActions env root actions = .ok []) :
    performBulkOperations env actions =
      (.error (.axiomErr ⟨"No files matched the specified patterns.",
        .FILE_NOT_FOUND⟩), []) := by
  simp [performBulkOperations, ht, hw, hexp]

/-- Witness for C4: a wildcard delete whose pattern matches nothing. -/
theorem bulk_empty_expansion_throws_witness :
    performBulkOperations simpleEnv [⟨"delete", { path := some "*.log" }⟩] =
      (.error (.axiomErr ⟨"No files matched the specified patterns.",
        .FILE_NOT_FOUND⟩), []) :=
  bulk_empty_expansion_throws simpleEnv _ "/w" [] rfl rfl rfl

/-- C3 (code bug): on the function's own documented example — the
supported glob pair `**/*.js` → `**/*.ts` and a path ending in the
source suffix — `transformPath` returns the path *unchanged*: the guard
`sourcePattern.endsWith('*')` is false for any glob ending in a literal
suffix, so the documented transformation branch is never taken. -/
theorem transformPath_supported_pair_unchanged :
    transformPath "file.js" "**/*.js" "**/*.ts" = "file.js" ∧
    "file.js" ≠ "file.ts" := by
  decide

/-- C6, counterexample: for the glob pair `*` → `*` — which does *not*
end in a wildcard followed by a literal suffix, so the claim requires
the path back unchanged — the constructed regex `/\.*$/` matches the
empty string at the end of `a.*` and `transformPath` *appends* `.*`;
re-applying it to the already-transformed path changes it again, so
neither the "unchanged on unsupported shapes" part nor idempotence
holds. -/
theorem transformPath_unsupported_pair_changes_path :
    transformPath "a.*" "*" "*" = "a.*.*" ∧
    transformPath (transformPath "a.*" "*" "*") "*" "*" = "a.*.*.*" := by
  decide

/-- C6, amended: `transformPath` returns the path unchanged — and is
idempotent — whenever the source or target pattern does not end in `*`
(the code's notion of an unsupported pair), or the path does not end
with `.` followed by the extracted source suffix.  (For degenerate
patterns that end in `*` without a literal suffix, such as `*` itself,
the path can be changed and re-application is not the identity.) -/
theorem transformPath_eq (p src tgt : String) :
    transformPath p src tgt =
      if (jsEndsWith src "*" && jsEndsWith tgt "*") = true then
        if jsEndsWith p ("." ++ stripExtPrefix src) = true then
          jsReplaceRegex ("\\." ++ stripExtPrefix src ++ "$") ("." ++ stripExtPrefix tgt) p
        else p
      else p := rfl

theorem transformPath_nonmatching_identity (p src tgt : String)
    (h : (jsEndsWith src "*" && jsEndsWith tgt "*") = false ∨
         jsEndsWith p ("." ++ stripExtPrefix src) = false) :
    transformPath p src tgt = p ∧
    transformPath (transformPath p src tgt) src tgt = p := by
  have h1 : transformPath p src tgt = p := by
    rw [transformPath_eq]
    rcases h with h | h
    · rw [h]
      simp
    · by_cases hg : (jsEndsWith src "*" && jsEndsWith tgt "*") = true
      · rw [if_pos hg, h]
        simp
      · rw [Bool.not_eq_true] at hg
        rw [hg]
        simp
  refine ⟨h1, ?_⟩
  rw [h1, h1]

/-- Witness for C6's amended theorem: the pair `**/*.js` → `**/*.ts`
fails the `endsWith('*')` guard, so the path always comes back
unchanged. -/
theorem transformPath_nonmatching_identity_witness :
    transformPath "file.js" "**/*.js" "**/*.ts" = "file.js" ∧
    transformPath (transformPath "file.js" "**/*.js" "**/*.ts") "**/*.js" "**/*.ts" = "file.js" :=
  transformPath_nonmatching_identity "file.js" "**/*.js" "**/*.ts" (Or.inl (by decide))

end FileAxiom

namespace FileAxiom

/-- A target-check error is always `ALREADY_EXISTS` on an action whose
target is taken (when stats do not fail). -/
theorem validateTarget_some_char (env : Env) (a : ExpandedAction) (e : JSError)
    (hnf : ∀ p m, env.stat p ≠ .failure m)
    (h : validateTarget env a = some e) :
    (∃ msg, e = .axiomErr ⟨msg, .ALREADY_EXISTS⟩) ∧ targetTaken env a = true := by
  unfold validateTarget at h
  split at h
  · rename_i htype
    split at h
    · rename_i tgt htgt
      split at h
      · rename_i hst
        have he : e = .axiomErr ⟨"Target already exists: " ++ jsTemplate a.params.target ++
            ". Aborting entire batch to prevent overwrites.", .ALREADY_EXISTS⟩ := by
          injection h with h'
          exact h'.symm
        refine ⟨⟨_, he⟩, ?_⟩
        simp [targetTaken, htype, htgt, hst]
      · rename_i hst
        simp at h
      · rename_i m hst
        exact absurd hst (hnf tgt m)
    · rename_i htgt
      simp at h
  · rename_i htype
    simp at h

/-- A passing target check means the action's target is not taken. -/
theorem validateTarget_none (env : Env) (a : ExpandedAction)
    (h : validateTarget env a = none) : targetTaken env a = false := by
  unfold validateTarget at h
  split at h
  · rename_i htype
    split at h
    · rename_i tgt htgt
      split at h
      · rename_i hst
        simp at h
      · rename_i hst
        simp [targetTaken, htgt, hst]
      · rename_i m hst
        simp at h
    · rename_i htgt
      simp [targetTaken, htgt]
  · rename_i htype
    simp only [Bool.not_eq_true] at htype
    simp [targetTaken, htype]

/-- Characterization of a Phase 2 per-action error: `FILE_NOT_FOUND` on a
missing source, else `ALREADY_EXISTS` on a taken target (when stats do
not fail). -/
theorem validateOne_some_char (env : Env) (a : ExpandedAction) (e : JSError)
    (hnf : ∀ p m, env.stat p ≠ .failure m)
    (h : validateOne env a = some e) :
    ((∃ msg, e = .axiomErr ⟨msg, .FILE_NOT_FOUND⟩) ∧ sourceMissing env a = true) ∨
    ((∃ msg, e = .axiomErr ⟨msg, .ALREADY_EXISTS⟩) ∧ targetTaken env a = true) := by
  unfold validateOne at h
  split at h
  · rename_i src hs
    split at h
    · exact Or.inr (validateTarget_some_char env a e hnf h)
    · rename_i hst
      have he : e = .axiomErr ⟨"Source file not found: " ++
          jsTemplate (jsOrVal a.params.source a.params.path) ++
          ". Aborting entire batch.", .FILE_NOT_FOUND⟩ := by
        injection h with h'
        exact h'.symm
      refine Or.inl ⟨⟨_, he⟩, ?_⟩
      simp [sourceMissing, hs, hst]
    · rename_i m hst
      exact absurd hst (hnf src m)
  · exact Or.inr (validateTarget_some_char env a e hnf h)

/-- A per-action validation pass means no violation on that action. -/
theorem validateOne_none (env : Env) (a : ExpandedAction)
    (h : validateOne env a = none) :
    sourceMissing env a = false ∧ targetTaken env a = false := by
  unfold validateOne at h
  split at h
  · rename_i src hs
    split at h
    · rename_i hst
      exact ⟨by simp [sourceMissing, hs, hst], validateTarget_none env a h⟩
    · simp at h
    · simp at h
  · rename_i hs
    refine ⟨by simp [sourceMissing, hs], validateTarget_none env a h⟩

/-- If some action of the batch violates a precondition, Phase 2 reports
an error, and its kind matches a violation present in the batch. -/
theorem validateActions_finds_violation (env : Env) (exp : List ExpandedAction)
    (hnf : ∀ p m, env.stat p ≠ .failure m)
    (hviol : ∃ a ∈ exp, sourceMissing env a = true ∨ targetTaken env a = true) :
    ∃ e, validateActions env exp = some e ∧
      (((∃ msg, e = .axiomErr ⟨msg, .FILE_NOT_FOUND⟩) ∧ ∃ a ∈ exp, sourceMissing env a = true) ∨
       ((∃ msg, e = .axiomErr ⟨msg, .ALREADY_EXISTS⟩) ∧ ∃ a ∈ exp, targetTaken env a = true)) := by
  induction exp with
  | nil => simp at hviol
  | cons a rest ih =>
    rcases hv : validateOne env a with _ | e
    · obtain ⟨hsm, htt⟩ := validateOne_none env a hv
      have hviol' : ∃ b ∈ rest, sourceMissing env b = true ∨ targetTaken env b = true := by
        rcases hviol with ⟨b, hb, hor⟩
        rcases List.mem_cons.mp hb with hba | hbr
        · subst hba
          rcases hor with hh | hh
          · rw [hsm] at hh
            exact absurd hh (by simp)
          · rw [htt] at hh
            exact absurd hh (by simp)
        · exact ⟨b, hbr, hor⟩
      obtain ⟨e, he, hchar⟩ := ih hviol'
      refine ⟨e, ?_, ?_⟩
      · unfold validateActions
        rw [hv]
        exact he
      · rcases hchar with ⟨hmsg, b, hb, hviolb⟩ | ⟨hmsg, b, hb, hviolb⟩
        · exact Or.inl ⟨hmsg, b, List.mem_cons_of_mem a hb, hviolb⟩
        · exact Or.inr ⟨hmsg, b, List.mem_cons_of_mem a hb, hviolb⟩
    · refine ⟨e, ?_, ?_⟩
      · unfold validateActions
        rw [hv]
      · rcases validateOne_some_char env a e hnf hv with ⟨hmsg, hsm⟩ | ⟨hmsg, htt⟩
        · exact Or.inl ⟨hmsg, a, List.mem_cons_self a rest, hsm⟩
        · exact Or.inr ⟨hmsg, a, List.mem_cons_self a rest, htt⟩

end FileAxiom

namespace FileAxiom

/-- C1: if any expanded action's resolved target already exists
(rename/move/duplicate) or any resolved source is missing,
`performBulkOperations` throws `ALREADY_EXISTS` (resp. `FILE_NOT_FOUND`)
and performs no mutation whatsoever — no delete, no copy, and no
edit-batch commit, including for the other, valid actions of the same
batch (the effect trace is empty). -/
theorem bulk_validation_failure_aborts_batch (env : Env) (actions : List BulkAction)
    (root : String) (rest : List String) (exp : List ExpandedAction)
    (ht : env.isTrusted = true) (hw : env.workspaceFolders = root :: rest)
    (hexp : expandActions env root actions = .ok exp)
    (hnf : ∀ p m, env.stat p ≠ .failure m)
    (hviol : ∃ a ∈ exp, sourceMissing env a = true ∨ targetTaken env a = true) :
    ∃ err : FileAxiomError,
      performBulkOperations env actions = (.error (.axiomErr err), []) ∧
      ((err.code = .FILE_NOT_FOUND ∧ ∃ a ∈ exp, sourceMissing env a = true) ∨
       (err.code = .ALREADY_EXISTS ∧ ∃ a ∈ exp, targetTaken env a = true)) := by
  obtain ⟨e, hval, hchar⟩ := validateActions_finds_violation env exp hnf hviol
  have hne : exp ≠ [] := by
    rcases hviol with ⟨a, ha, _⟩
    exact List.ne_nil_of_mem ha
  rcases hchar with ⟨⟨msg, he⟩, hsm⟩ | ⟨⟨msg, he⟩, htt⟩
  · subst he
    refine ⟨⟨msg, .FILE_NOT_FOUND⟩, ?_, Or.inl ⟨rfl, hsm⟩⟩
    simp [performBulkOperations, ht, hw, hexp, hval, hne]
  · subst he
    refine ⟨⟨msg, .ALREADY_EXISTS⟩, ?_, Or.inr ⟨rfl, htt⟩⟩
    simp [performBulkOperations, ht, hw, hexp, hval, hne]

end FileAxiom

namespace FileAxiom

/-- Witness for C1: one valid-looking rename whose target `b.ts` already
exists aborts with `ALREADY_EXISTS` and an empty mutation trace. -/
theorem bulk_validation_failure_aborts_batch_witness :
    ∃ err : FileAxiomError,
      performBulkOperations
          { simpleEnv with stat := fun p =>
              if p = "/w/a.ts" || p = "/w/b.ts" then .found else .notFound }
          [⟨"rename", { source := some "a.ts", target := some "b.ts" }⟩] =
        (.error (.axiomErr err), []) ∧
      ((err.code = .FILE_NOT_FOUND ∧ ∃ a ∈
          [({ type := "rename", params := { source := some "a.ts", target := some "b.ts" },
              resolvedSource := some "/w/a.ts", resolvedTarget := some "/w/b.ts" } : ExpandedAction)],
          sourceMissing { simpleEnv with stat := fun p =>
              if p = "/w/a.ts" || p = "/w/b.ts" then .found else .notFound } a = true) ∨
       (err.code = .ALREADY_EXISTS ∧ ∃ a ∈
          [({ type := "rename", params := { source := some "a.ts", target := some "b.ts" },
              resolvedSource := some "/w/a.ts", resolvedTarget := some "/w/b.ts" } : ExpandedAction)],
          targetTaken { simpleEnv with stat := fun p =>
              if p = "/w/a.ts" || p = "/w/b.ts" then .found else .notFound } a = true)) :=
  bulk_validation_failure_aborts_batch
    { simpleEnv with stat := fun p =>
        if p = "/w/a.ts" || p = "/w/b.ts" then .found else .notFound }
    [⟨"rename", { source := some "a.ts", target := some "b.ts" }⟩]
    "/w" []
    [{ type := "rename", params := { source := some "a.ts", target := some "b.ts" },
       resolvedSource := some "/w/a.ts", resolvedTarget := some "/w/b.ts" }]
    rfl rfl rfl
    (by
      intro p m h
      simp only [simpleEnv] at h
      split at h <;> simp at h)
    (by decide)

end FileAxiom

namespace FileAxiom

/-- One Phase 4 iteration appends exactly the action's immediate
mutations to the effect trace. -/
theorem buildStep_effects (env : Env) (st : BuildState) (a : ExpandedAction) :
    (buildStep env st a).effects = st.effects ++ immediateEffects env a := by
  unfold buildStep immediateEffects
  by_cases h1 : (a.type = "delete" && a.resolvedSource.isSome) = true
  · rw [if_pos h1, if_pos h1]
    rcases hs : a.resolvedSource with _ | src
    · simp
    · rcases hd : env.deleteOutcome src with _ | msg <;> simp [hs, hd]
  · rw [if_neg h1, if_neg h1]
    by_cases h2 : ((a.type = "rename" || a.type = "move") &&
        a.resolvedSource.isSome && a.resolvedTarget.isSome) = true
    · rw [if_pos h2]
      have hrm : a.type = "rename" ∨ a.type = "move" := by
        simp only [Bool.and_eq_true, Bool.or_eq_true, decide_eq_true_eq] at h2
        exact h2.1.1
      have h3 : (a.type = "duplicate" && a.resolvedSource.isSome &&
          a.resolvedTarget.isSome) = false := by
        rcases hrm with h | h <;> simp [h]
      rw [if_neg (by simp [h3])]
      rcases hs : a.resolvedSource with _ | src
      · simp
      · rcases htg : a.resolvedTarget with _ | tgt
        · simp [hs]
        · simp [hs, htg]
    · rw [if_neg h2]
      by_cases h3 : (a.type = "duplicate" && a.resolvedSource.isSome &&
          a.resolvedTarget.isSome) = true
      · rw [if_pos h3, if_pos h3]
        rcases hs : a.resolvedSource with _ | src
        · simp
        · rcases htg : a.resolvedTarget with _ | tgt
          · simp [hs]
          · rcases hc : env.copyOutcome src tgt with _ | msg <;> simp [hs, htg, hc]
      · rw [if_neg h3, if_neg h3]
        simp

/-- The Phase 4 fold's effect trace is the concatenation of each action's
immediate mutations, in batch order. -/
theorem buildFold_effects (env : Env) (exp : List ExpandedAction) :
    ∀ st : BuildState, (exp.foldl (buildStep env) st).effects =
      st.effects ++ exp.flatMap (immediateEffects env) := by
  induction exp with
  | nil => intro st; simp
  | cons a rest ih =>
    intro st
    simp only [List.foldl_cons, List.flatMap_cons]
    rw [ih (buildStep env st a), buildStep_effects]
    simp

/-- The complete Phase 4 effect trace from the empty starting state. -/
theorem buildPhase_effects (env : Env) (exp : List ExpandedAction)
    (refs : List (Option RefEditSet)) :
    (buildPhase env exp refs).effects = exp.flatMap (immediateEffects env) := by
  unfold buildPhase
  rw [buildFold_effects]
  rfl

/-- Immediate mutations are only deletes and copies — never a batch
commit. -/
theorem immediateEffects_no_applyEdit (env : Env) (a : ExpandedAction)
    (b : List EditOp) : Effect.applyEdit b ∉ immediateEffects env a := by
  unfold immediateEffects
  repeat' split
  all_goals simp

end FileAxiom

namespace FileAxiom

/-- C2: for a batch that passes validation, deletes and duplicates
execute immediately during the build loop; if the final commit is then
rejected, `performBulkOperations` raises `EDIT_REJECTED` and the trace
consists exactly of the already-executed immediate mutations — which are
never a batch commit and are not rolled back (no compensating effect
exists). -/
theorem bulk_edit_rejected_keeps_immediate_effects (env : Env)
    (actions : List BulkAction) (root : String) (rest : List String)
    (exp : List ExpandedAction)
    (ht : env.isTrusted = true) (hw : env.workspaceFolders = root :: rest)
    (hexp : expandActions env root actions = .ok exp) (hne : exp ≠ [])
    (hval : validateActions env exp = none)
    (hcommit : env.applyEditOk = false) :
    performBulkOperations env actions =
      (.error (.axiomErr ⟨"WorkspaceEdit was rejected by VS Code. Some files may be read-only.",
        .EDIT_REJECTED⟩),
       exp.flatMap (immediateEffects env)) ∧
    (∀ b, Effect.applyEdit b ∉ exp.flatMap (immediateEffects env)) := by
  constructor
  · simp [performBulkOperations, ht, hw, hexp, hval, hne, hcommit, buildPhase_effects]
  · intro b hb
    rw [List.mem_flatMap] at hb
    obtain ⟨a, _, hmem⟩ := hb
    exact immediateEffects_no_applyEdit env a b hmem

/-- Witness for C2: a delete plus a rename; the delete runs, the commit
is rejected, the thrown error is `EDIT_REJECTED` and the delete stays. -/
theorem bulk_edit_rejected_keeps_immediate_effects_witness :
    performBulkOperations
        { simpleEnv with
            stat := fun p => if p = "/w/x.log" || p = "/w/a.ts" then .found else .notFound,
            applyEditOk := false }
        [⟨"delete", { path := some "x.log" }⟩,
         ⟨"rename", { source := some "a.ts", target := some "b.ts" }⟩] =
      (.error (.axiomErr ⟨"WorkspaceEdit was rejected by VS Code. Some files may be read-only.",
        .EDIT_REJECTED⟩),
       [({ type := "delete", params := { path := some "x.log" },
           resolvedSource := some "/w/x.log" } : ExpandedAction),
        { type := "rename", params := { source := some "a.ts", target := some "b.ts" },
          resolvedSource := some "/w/a.ts", resolvedTarget := some "/w/b.ts" }].flatMap
         (immediateEffects { simpleEnv with
            stat := fun p => if p = "/w/x.log" || p = "/w/a.ts" then .found else .notFound,
            applyEditOk := false })) ∧
    (∀ b, Effect.applyEdit b ∉
      [({ type := "delete", params := { path := some "x.log" },
          resolvedSource := some "/w/x.log" } : ExpandedAction),
       { type := "rename", params := { source := some "a.ts", target := some "b.ts" },
         resolvedSource := some "/w/a.ts", resolvedTarget := some "/w/b.ts" }].flatMap
        (immediateEffects { simpleEnv with
           stat := fun p => if p = "/w/x.log" || p = "/w/a.ts" then .found else .notFound,
           applyEditOk := false })) :=
  bulk_edit_rejected_keeps_immediate_effects
    { simpleEnv with
        stat := fun p => if p = "/w/x.log" || p = "/w/a.ts" then .found else .notFound,
        applyEditOk := false }
    [⟨"delete", { path := some "x.log" }⟩,
     ⟨"rename", { source := some "a.ts", target := some "b.ts" }⟩]
    "/w" []
    [{ type := "delete", params := { path := some "x.log" },
       resolvedSource := some "/w/x.log" },
     { type := "rename", params := { source := some "a.ts", target := some "b.ts" },
       resolvedSource := some "/w/a.ts", resolvedTarget := some "/w/b.ts" }]
    rfl rfl rfl (by decide) rfl rfl

end FileAxiom

namespace FileAxiom

/-- One Phase 4 iteration preserves the bookkeeping invariant: the
success/failure counters equal the number of success/failure operation
entries. -/
theorem buildStep_counts (env : Env) (st : BuildState) (a : ExpandedAction)
    (h1 : st.result.successCount = (st.result.operations.filter (fun o => o.success)).length)
    (h2 : st.result.failedCount = (st.result.operations.filter (fun o => !o.success)).length) :
    (buildStep env st a).result.successCount =
      ((buildStep env st a).result.operations.filter (fun o => o.success)).length ∧
    (buildStep env st a).result.failedCount =
      ((buildStep env st a).result.operations.filter (fun o => !o.success)).length := by
  unfold buildStep
  by_cases hc1 : (a.type = "delete" && a.resolvedSource.isSome) = true
  · rw [if_pos hc1]
    rcases hs : a.resolvedSource with _ | src
    · exact ⟨h1, h2⟩
    · rcases hd : env.deleteOutcome src with _ | msg <;>
        simp [hs, hd, addFailure, recordFailure, List.filter_append, h1, h2]
  · rw [if_neg hc1]
    by_cases hc2 : ((a.type = "rename" || a.type = "move") &&
        a.resolvedSource.isSome && a.resolvedTarget.isSome) = true
    · rw [if_pos hc2]
      rcases hs : a.resolvedSource with _ | src
      · exact ⟨h1, h2⟩
      · rcases htg : a.resolvedTarget with _ | tgt
        · simp [hs]
          exact ⟨h1, h2⟩
        · simp [hs, htg, List.filter_append, h1, h2]
    · rw [if_neg hc2]
      by_cases hc3 : (a.type = "duplicate" && a.resolvedSource.isSome &&
          a.resolvedTarget.isSome) = true
      · rw [if_pos hc3]
        rcases hs : a.resolvedSource with _ | src
        · exact ⟨h1, h2⟩
        · rcases htg : a.resolvedTarget with _ | tgt
          · simp [hs]
            exact ⟨h1, h2⟩
          · rcases hc : env.copyOutcome src tgt with _ | msg <;>
              simp [hs, htg, hc, addFailure, recordFailure, List.filter_append, h1, h2]
      · rw [if_neg hc3]
        exact ⟨h1, h2⟩

/-- The Phase 4 fold preserves the bookkeeping invariant. -/
theorem buildFold_counts (env : Env) (exp : List ExpandedAction) :
    ∀ st : BuildState,
      st.result.successCount = (st.result.operations.filter (fun o => o.success)).length →
      st.result.failedCount = (st.result.operations.filter (fun o => !o.success)).length →
      (exp.foldl (buildStep env) st).result.successCount =
        ((exp.foldl (buildStep env) st).result.operations.filter (fun o => o.success)).length ∧
      (exp.foldl (buildStep env) st).result.failedCount =
        ((exp.foldl (buildStep env) st).result.operations.filter (fun o => !o.success)).length := by
  induction exp with
  | nil => intro st h1 h2; exact ⟨h1, h2⟩
  | cons a rest ih =>
    intro st h1 h2
    obtain ⟨h1', h2'⟩ := buildStep_counts env st a h1 h2
    simpa using ih (buildStep env st a) h1' h2'

/-- The bookkeeping invariant holds of the complete Phase 4 result. -/
theorem buildPhase_counts (env : Env) (exp : List ExpandedAction)
    (refs : List (Option RefEditSet)) :
    (buildPhase env exp refs).result.successCount =
      ((buildPhase env exp refs).result.operations.filter (fun o => o.success)).length ∧
    (buildPhase env exp refs).result.failedCount =
      ((buildPhase env exp refs).result.operations.filter (fun o => !o.success)).length := by
  unfold buildPhase
  exact buildFold_counts env exp ⟨emptyResult, [], [], refs⟩ rfl rfl

/-- C10: in every `BulkOperationResult` returned by
`performBulkOperations`, `successCount` is the number of operation
entries with `success = true`, `failedCount` the number with
`success = false`, and they add up to the number of entries. -/
theorem bulk_result_counts_invariant (env : Env) (actions : List BulkAction)
    (r : BulkOperationResult) (tr : List Effect)
    (h : performBulkOperations env actions = (.ok r, tr)) :
    r.successCount = (r.operations.filter (fun o => o.success)).length ∧
    r.failedCount = (r.operations.filter (fun o => !o.success)).length ∧
    r.successCount + r.failedCount = r.operations.length := by
  unfold performBulkOperations at h
  split at h
  · simp at h
  · split at h
    · simp at h
    · rename_i root rest hw
      split at h
      · simp at h
      · rename_i exp hexp
        split at h
        · simp at h
        · split at h
          · simp at h
          · split at h
            · rename_i hcommit
              simp only [Prod.mk.injEq] at h
              obtain ⟨hr, -⟩ := h
              injection hr with h'
              subst h'
              obtain ⟨g1, g2⟩ := buildPhase_counts env exp (collectRefs env exp)
              refine ⟨g1, g2, ?_⟩
              rw [g1, g2]
              exact (List.length_eq_length_filter_add (fun o : BulkOperationRecord => o.success)).symm
            · simp at h

/-- Witness for C10, at the 3-delete scenario of C5 (two successes, one
caught failure). -/
theorem bulk_result_counts_invariant_witness :
    performBulkOperations
        { simpleEnv with
            stat := fun _ => .found,
            deleteOutcome := fun p =>
              if p = "/w/b.log" then some "EntryNotFound (FileSystemError)" else none }
        [⟨"delete", { path := some "a.log" }⟩,
         ⟨"delete", { path := some "b.log" }⟩,
         ⟨"delete", { path := some "c.log" }⟩] =
      (.ok { successCount := 2, failedCount := 1, totalReferencesUpdated := 0,
             operations :=
               [{ type := "delete", source := some "a.log", success := true },
                { type := "delete", source := some "b.log", success := false,
                  error := some "EntryNotFound (FileSystemError)" },
                { type := "delete", source := some "c.log", success := true }] },
       [.deleteFile "/w/a.log", .deleteFile "/w/c.log", .applyEdit []]) ∧
    ((2 : Nat) =
      (({ successCount := 2, failedCount := 1, totalReferencesUpdated := 0,
          operations :=
            [{ type := "delete", source := some "a.log", success := true },
             { type := "delete", source := some "b.log", success := false,
               error := some "EntryNotFound (FileSystemError)" },
             { type := "delete", source := some "c.log", success := true }] } :
          BulkOperationResult).operations.filter (fun o => o.success)).length ∧
     (1 : Nat) =
      (({ successCount := 2, failedCount := 1, totalReferencesUpdated := 0,
          operations :=
            [{ type := "delete", source := some "a.log", success := true },
             { type := "delete", source := some "b.log", success := false,
               error := some "EntryNotFound (FileSystemError)" },
             { type := "delete", source := some "c.log", success := true }] } :
          BulkOperationResult).operations.filter (fun o => !o.success)).length ∧
     (2 : Nat) + 1 =
      ({ successCount := 2, failedCount := 1, totalReferencesUpdated := 0,
         operations :=
           [{ type := "delete", source := some "a.log", success := true },
            { type := "delete", source := some "b.log", success := false,
              error := some "EntryNotFound (FileSystemError)" },
            { type := "delete", source := some "c.log", success := true }] } :
         BulkOperationResult).operations.length) :=
  ⟨rfl,
   bulk_result_counts_invariant
     { simpleEnv with
         stat := fun _ => .found,
         deleteOutcome := fun p =>
           if p = "/w/b.log" then some "EntryNotFound (FileSystemError)" else none }
     [⟨"delete", { path := some "a.log" }⟩,
      ⟨"delete", { path := some "b.log" }⟩,
      ⟨"delete", { path := some "c.log" }⟩]
     { successCount := 2, failedCount := 1, totalReferencesUpdated := 0,
       operations :=
         [{ type := "delete", source := some "a.log", success := true },
          { type := "delete", source := some "b.log", success := false,
            error := some "EntryNotFound (FileSystemError)" },
          { type := "delete", source := some "c.log", success := true }] }
     [.deleteFile "/w/a.log", .deleteFile "/w/c.log", .applyEdit []]
     rfl⟩

end FileAxiom

namespace FileAxiom

/-- Every action produced by wildcard rename/move/duplicate expansion
carries the loop's type and both resolved paths. -/
theorem expandMatches_mem (env : Env) (root ty source : String) (target : Option String)
    (files : List String) (exp1 : List ExpandedAction)
    (h : expandMatches env root ty source target files = .ok exp1) :
    ∀ a ∈ exp1, a.type = ty ∧ a.resolvedSource.isSome = true ∧
      a.resolvedTarget.isSome = true := by
  induction files generalizing exp1 with
  | nil =>
    unfold expandMatches at h
    injection h with h'
    subst h'
    simp
  | cons uri rest ih =>
    unfold expandMatches at h
    simp only [] at h
    rcases hjt : jsTransformTarget target (env.asRelativePath uri) source with e | newTarget
    · rw [hjt] at h
      simp at h
    · rw [hjt] at h
      rcases hrest : expandMatches env root ty source target rest with e2 | tail
      · rw [hrest] at h
        simp at h
      · rw [hrest] at h
        injection h with h'
        subst h'
        intro a ha
        rcases List.mem_cons.mp ha with rfl | hmem
        · simp
        · exact ih tail hrest a hmem

/-- Every expanded action hits one of the three Phase 4 branches. -/
theorem expandOne_hitsBranch (env : Env) (root : String) (action : BulkAction)
    (exp1 : List ExpandedAction) (h : expandOne env root action = .ok exp1) :
    ∀ a ∈ exp1, hitsBranch a = true := by
  unfold expandOne at h
  split at h
  · rename_i hdel
    have hty : action.type = "delete" := by
      simp only [Bool.and_eq_true, decide_eq_true_eq] at hdel
      exact hdel.1
    simp only [] at h
    split at h
    · rcases hff : findFiles env (action.params.path.getD "") 1000 with e | files
      · rw [hff] at h
        simp at h
      · rw [hff] at h
        injection h with h'
        subst h'
        intro a ha
        rcases List.mem_map.mp ha with ⟨uri, -, rfl⟩
        simp [hitsBranch]
    · injection h with h'
      subst h'
      intro a ha
      rcases List.mem_singleton.mp ha with rfl
      simp [hitsBranch, hty]
  · rename_i hnot
    split at h
    · rename_i hrmd
      split at h
      · simp at h
      · rename_i source hsrc
        have hty : action.type = "rename" ∨ action.type = "move" ∨
            action.type = "duplicate" := by
          simp only [Bool.or_eq_true, decide_eq_true_eq] at hrmd
          rcases hrmd with (h | h) | h
          · exact Or.inl h
          · exact Or.inr (Or.inl h)
          · exact Or.inr (Or.inr h)
        split at h
        · rcases hff : findFiles env source 1000 with e | files
          · rw [hff] at h
            simp at h
          · rw [hff] at h
            intro a ha
            obtain ⟨haty, hasrc, hatgt⟩ :=
              expandMatches_mem env root action.type source action.params.target files exp1 h a ha
            rcases hty with hh | hh | hh <;>
              simp [hitsBranch, haty, hh, hasrc, hatgt]
        · split at h
          · simp at h
          · rename_i target htgt
            injection h with h'
            subst h'
            intro a ha
            rcases List.mem_singleton.mp ha with rfl
            rcases hty with hh | hh | hh <;> simp [hitsBranch, hh]
    · injection h with h'
      subst h'
      simp

/-- Every action of a fully expanded batch hits a Phase 4 branch. -/
theorem expandActions_hitsBranch (env : Env) (root : String)
    (actions : List BulkAction) (exp : List ExpandedAction)
    (h : expandActions env root actions = .ok exp) :
    ∀ a ∈ exp, hitsBranch a = true := by
  induction actions generalizing exp with
  | nil =>
    unfold expandActions at h
    injection h with h'
    subst h'
    simp
  | cons b rest ih =>
    unfold expandActions at h
    split at h
    · simp at h
    · rename_i exp1 h1
      split at h
      · simp at h
      · rename_i exps hrest
        injection h with h'
        subst h'
        intro a ha
        rcases List.mem_append.mp ha with hmem | hmem
        · exact expandOne_hitsBranch env root b exp1 h1 a hmem
        · exact ih exps hrest a hmem

end FileAxiom

namespace FileAxiom

/-- One Phase 4 iteration appends exactly one operations entry for a
branch-hitting action (success or caught failure) and none otherwise. -/
theorem buildStep_opsLength (env : Env) (st : BuildState) (a : ExpandedAction) :
    (buildStep env st a).result.operations.length =
      st.result.operations.length + (if hitsBranch a = true then 1 else 0) := by
  unfold buildStep
  by_cases hc1 : (a.type = "delete" && a.resolvedSource.isSome) = true
  · rw [if_pos hc1]
    have hhb : hitsBranch a = true := by simp [hitsBranch, hc1]
    rcases hs : a.resolvedSource with _ | src
    · simp [hs] at hc1
    · rcases hd : env.deleteOutcome src with _ | msg <;>
        simp [hs, hd, addFailure, recordFailure, hhb]
  · rw [if_neg hc1]
    by_cases hc2 : ((a.type = "rename" || a.type = "move") &&
        a.resolvedSource.isSome && a.resolvedTarget.isSome) = true
    · rw [if_pos hc2]
      have hhb : hitsBranch a = true := by simp [hitsBranch, hc2]
      rcases hs : a.resolvedSource with _ | src
      · simp [hs] at hc2
      · rcases htg : a.resolvedTarget with _ | tgt
        · simp [hs, htg] at hc2
        · simp [hs, htg, hhb]
    · rw [if_neg hc2]
      by_cases hc3 : (a.type = "duplicate" && a.resolvedSource.isSome &&
          a.resolvedTarget.isSome) = true
      · rw [if_pos hc3]
        have hhb : hitsBranch a = true := by simp [hitsBranch, hc3]
        rcases hs : a.resolvedSource with _ | src
        · simp [hs] at hc3
        · rcases htg : a.resolvedTarget with _ | tgt
          · simp [hs, htg] at hc3
          · rcases hc : env.copyOutcome src tgt with _ | msg <;>
              simp [hs, htg, hc, addFailure, recordFailure, hhb]
      · rw [if_neg hc3]
        rw [Bool.not_eq_true] at hc1 hc2 hc3
        have hhb : hitsBranch a = false := by simp [hitsBranch, hc1, hc2, hc3]
        simp [hhb]

/-- Over a batch whose actions all hit a branch, the Phase 4 fold
produces exactly one operations entry per action. -/
theorem buildFold_opsLength (env : Env) (exp : List ExpandedAction)
    (hall : ∀ a ∈ exp, hitsBranch a = true) :
    ∀ st : BuildState, (exp.foldl (buildStep env) st).result.operations.length =
      st.result.operations.length + exp.length := by
  induction exp with
  | nil => intro st; simp
  | cons a rest ih =>
    intro st
    have ha := hall a (List.mem_cons_self a rest)
    have ih' := ih (fun b hb => hall b (List.mem_cons_of_mem a hb)) (buildStep env st a)
    simp only [List.foldl_cons]
    rw [ih', buildStep_opsLength, ha]
    simp
    omega

/-- C5: once a batch passes validation (and the final commit is
accepted), `performBulkOperations` never throws: it returns a result in
which every expanded action — including any whose execution failed and
was caught — contributes exactly one operations entry. -/
theorem bulk_post_validation_never_throws (env : Env) (actions : List BulkAction)
    (root : String) (rest : List String) (exp : List ExpandedAction)
    (ht : env.isTrusted = true) (hw : env.workspaceFolders = root :: rest)
    (hexp : expandActions env root actions = .ok exp) (hne : exp ≠ [])
    (hval : validateActions env exp = none)
    (hcommit : env.applyEditOk = true) :
    ∃ r tr, performBulkOperations env actions = (.ok r, tr) ∧
      r.operations.length = exp.length := by
  have hall := expandActions_hitsBranch env root actions exp hexp
  refine ⟨(buildPhase env exp (collectRefs env exp)).result,
    (buildPhase env exp (collectRefs env exp)).effects ++
      [.applyEdit (buildPhase env exp (collectRefs env exp)).edit], ?_, ?_⟩
  · simp [performBulkOperations, ht, hw, hexp, hval, hne, hcommit]
  · unfold buildPhase
    rw [buildFold_opsLength env exp hall]
    simp [emptyResult]

/-- Witness for C5: three deletes whose second source vanishes between
validation and execution yield `operations = [success, failure,
success]`, counts 2/1, and no exception. -/
theorem bulk_post_validation_never_throws_witness :
    (∃ r tr, performBulkOperations
        { simpleEnv with
            stat := fun _ => .found,
            deleteOutcome := fun p =>
              if p = "/w/b.log" then some "EntryNotFound (FileSystemError)" else none }
        [⟨"delete", { path := some "a.log" }⟩,
         ⟨"delete", { path := some "b.log" }⟩,
         ⟨"delete", { path := some "c.log" }⟩] = (.ok r, tr) ∧
      r.operations.length =
        ([{ type := "delete", params := { path := some "a.log" },
            resolvedSource := some "/w/a.log" },
          { type := "delete", params := { path := some "b.log" },
            resolvedSource := some "/w/b.log" },
          ({ type := "delete", params := { path := some "c.log" },
             resolvedSource := some "/w/c.log" } : ExpandedAction)] :
          List ExpandedAction).length) ∧
    (performBulkOperations
        { simpleEnv with
            stat := fun _ => .found,
            deleteOutcome := fun p =>
              if p = "/w/b.log" then some "EntryNotFound (FileSystemError)" else none }
        [⟨"delete", { path := some "a.log" }⟩,
         ⟨"delete", { path := some "b.log" }⟩,
         ⟨"delete", { path := some "c.log" }⟩]).1 =
      .ok { successCount := 2, failedCount := 1, totalReferencesUpdated := 0,
            operations :=
              [{ type := "delete", source := some "a.log", success := true },
               { type := "delete", source := some "b.log", success := false,
                 error := some "EntryNotFound (FileSystemError)" },
               { type := "delete", source := some "c.log", success := true }] } :=
  ⟨bulk_post_validation_never_throws
     { simpleEnv with
         stat := fun _ => .found,
         deleteOutcome := fun p =>
           if p = "/w/b.log" then some "EntryNotFound (FileSystemError)" else none }
     [⟨"delete", { path := some "a.log" }⟩,
      ⟨"delete", { path := some "b.log" }⟩,
      ⟨"delete", { path := some "c.log" }⟩]
     "/w" []
     [{ type := "delete", params := { path := some "a.log" },
        resolvedSource := some "/w/a.log" },
      { type := "delete", params := { path := some "b.log" },
        resolvedSource := some "/w/b.log" },
      { type := "delete", params := { path := some "c.log" },
        resolvedSource := some "/w/c.log" }]
     rfl rfl rfl (by decide) rfl rfl,
   rfl⟩

end FileAxiom

namespace FileAxiom

/-- Totality of the `findFiles` sort comparator. -/
theorem pathLeData_total : ∀ l1 l2 : List Char,
    pathLeData l1 l2 = true ∨ pathLeData l2 l1 = true := by
  intro l1
  induction l1 with
  | nil => intro l2; exact Or.inl rfl
  | cons c cs ih =>
    intro l2
    cases l2 with
    | nil => exact Or.inr rfl
    | cons d ds =>
      by_cases hcd : c = d
      · subst hcd
        unfold pathLeData
        rw [if_pos rfl, if_pos rfl]
        exact ih ds
      · unfold pathLeData
        rw [if_neg hcd, if_neg (Ne.symm hcd)]
        have hne : c.toNat ≠ d.toNat := by
          intro h
          exact hcd (Char.eq_of_val_eq (UInt32.ext h))
        rcases Nat.lt_or_ge c.toNat d.toNat with h | h
        · exact Or.inl (by simpa using h)
        · have : d.toNat < c.toNat := lt_of_le_of_ne h (Ne.symm hne)
          exact Or.inr (by simpa using this)

/-- Transitivity of the `findFiles` sort comparator. -/
theorem pathLeData_trans : ∀ l1 l2 l3 : List Char,
    pathLeData l1 l2 = true → pathLeData l2 l3 = true → pathLeData l1 l3 = true := by
  intro l1
  induction l1 with
  | nil => intro l2 l3 _ _; rfl
  | cons c cs ih =>
    intro l2 l3 h12 h23
    cases l2 with
    | nil => simp [pathLeData] at h12
    | cons d ds =>
      cases l3 with
      | nil => simp [pathLeData] at h23
      | cons e es =>
        unfold pathLeData at h12 h23 ⊢
        by_cases hcd : c = d
        · subst hcd
          rw [if_pos rfl] at h12
          by_cases hce : c = e
          · subst hce
            rw [if_pos rfl] at h23 ⊢
            exact ih ds es h12 h23
          · rw [if_neg hce] at h23 ⊢
            exact h23
        · rw [if_neg hcd] at h12
          by_cases hde : d = e
          · subst hde
            rw [if_neg hcd]
            exact h12
          · rw [if_neg hde] at h23
            have h1 : c.toNat < d.toNat := by simpa using h12
            have h2 : d.toNat < e.toNat := by simpa using h23
            have hce : c ≠ e := by
              intro h
              subst h
              exact absurd (Nat.lt_trans h1 h2) (lt_irrefl _)
            rw [if_neg hce]
            simpa using Nat.lt_trans h1 h2

/-- Wildcard rename/move/duplicate expansion with a present target maps
each match, in order, to its resolved action. -/
theorem expandMatches_ok (env : Env) (root ty source target : String)
    (l : List String) :
    expandMatches env root ty source (some target) l =
      .ok (l.map (fun uri =>
        { type := ty,
          params := { source := some (env.asRelativePath uri),
                      target := some (transformPath (env.asRelativePath uri) source target) },
          resolvedSource := some uri,
          resolvedTarget := some (joinPath root
            (transformPath (env.asRelativePath uri) source target)) })) := by
  induction l with
  | nil => rfl
  | cons uri rest ih =>
    unfold expandMatches
    simp only [jsTransformTarget, ih, List.map_cons]

/-- C7: `findFiles` returns its matches sorted (lexicographically by
absolute path), and wildcard expansion — both for delete patterns and
for rename/move/duplicate sources — maps the returned list in order,
never reordering, so the resolved batch order equals the search order. -/
theorem bulk_expansion_preserves_search_order :
    (∀ (env : Env) (pattern : String) (maxResults : Nat) (l : List String),
       findFiles env pattern maxResults = .ok l →
       l.Sorted (fun a b => pathLe a b = true)) ∧
    (∀ (env : Env) (root : String) (a : BulkAction) (p : String) (l : List String),
       a.type = "delete" → a.params.path = some p →
       (jsIncludesChar p '*' || jsIncludesChar p '?') = true →
       findFiles env p 1000 = .ok l →
       expandOne env root a = .ok (l.map (fun uri =>
         { type := "delete", params := { path := some (env.asRelativePath uri) },
           resolvedSource := some uri }))) ∧
    (∀ (env : Env) (root : String) (a : BulkAction) (source target : String)
       (l : List String),
       (a.type = "rename" ∨ a.type = "move" ∨ a.type = "duplicate") →
       a.params.source = some source → a.params.target = some target →
       (jsIncludesChar source '*' || jsIncludesChar source '?') = true →
       findFiles env source 1000 = .ok l →
       expandOne env root a = .ok (l.map (fun uri =>
         { type := a.type,
           params := { source := some (env.asRelativePath uri),
                       target := some (transformPath (env.asRelativePath uri) source target) },
           resolvedSource := some uri,
           resolvedTarget := some (joinPath root
             (transformPath (env.asRelativePath uri) source target)) }))) := by
  refine ⟨?_, ?_, ?_⟩
  · intro env pattern maxResults l h
    unfold findFiles at h
    split at h
    · simp at h
    · split at h
      · simp at h
      · injection h with h'
        subst h'
        exact @List.sorted_insertionSort String (fun a b => pathLe a b = true) _
          ⟨fun a b => pathLeData_total a.data b.data⟩
          ⟨fun a b c => pathLeData_trans a.data b.data c.data⟩ _
  · intro env root a p l hty hpath hwild hff
    have hp0 : p ≠ "" := by
      intro he
      subst he
      simp [jsIncludesChar] at hwild
    unfold expandOne
    rw [hty, hpath]
    rw [if_pos (by simp [jsTruthy, hp0])]
    simp only []
    rw [Option.getD_some]
    rw [if_pos (by simpa using hwild)]
    rw [hff]
  · intro env root a source target l hty hsrc htgt hwild hff
    have hnotdel : (a.type = "delete" && jsTruthy a.params.path) = false := by
      rcases hty with hh | hh | hh <;> simp [hh]
    unfold expandOne
    rw [hnotdel]
    simp only [Bool.false_eq_true, if_false]
    rw [if_pos (by rcases hty with hh | hh | hh <;> simp [hh])]
    rw [hsrc]
    simp only []
    rw [if_pos (by simpa using hwild)]
    rw [hff, htgt]
    exact expandMatches_ok env root a.type source target l

end FileAxiom

namespace FileAxiom

/-- Witness for C7: the search capability returns `[b.js, a.js]`
unsorted; `findFiles` sorts them and both delete and rename expansion
preserve that order. -/
theorem bulk_expansion_preserves_search_order_witness :
    (["/w/a.js", "/w/b.js"] : List String).Sorted (fun a b => pathLe a b = true) ∧
    expandOne { simpleEnv with findFilesRaw := fun _ _ => ["/w/b.js", "/w/a.js"] }
        "/w" ⟨"delete", { path := some "*.js" }⟩ =
      .ok (["/w/a.js", "/w/b.js"].map (fun uri =>
        { type := "delete",
          params := { path := some (({ simpleEnv with
              findFilesRaw := fun _ _ => ["/w/b.js", "/w/a.js"] } : Env).asRelativePath uri) },
          resolvedSource := some uri })) ∧
    expandOne { simpleEnv with findFilesRaw := fun _ _ => ["/w/b.js", "/w/a.js"] }
        "/w" ⟨"rename", { source := some "*.js", target := some "**/*.ts" }⟩ =
      .ok (["/w/a.js", "/w/b.js"].map (fun uri =>
        { type := ("rename" : String),
          params := { source := some (({ simpleEnv with
                        findFilesRaw := fun _ _ => ["/w/b.js", "/w/a.js"] } : Env).asRelativePath uri),
                      target := some (transformPath (({ simpleEnv with
                        findFilesRaw := fun _ _ => ["/w/b.js", "/w/a.js"] } : Env).asRelativePath uri)
                        "*.js" "**/*.ts") },
          resolvedSource := some uri,
          resolvedTarget := some (joinPath "/w" (transformPath (({ simpleEnv with
            findFilesRaw := fun _ _ => ["/w/b.js", "/w/a.js"] } : Env).asRelativePath uri)
            "*.js" "**/*.ts")) })) :=
  ⟨bulk_expansion_preserves_search_order.1
     { simpleEnv with findFilesRaw := fun _ _ => ["/w/b.js", "/w/a.js"] }
     "*.js" 1000 ["/w/a.js", "/w/b.js"] rfl,
   bulk_expansion_preserves_search_order.2.1
     { simpleEnv with findFilesRaw := fun _ _ => ["/w/b.js", "/w/a.js"] }
     "/w" ⟨"delete", { path := some "*.js" }⟩ "*.js" ["/w/a.js", "/w/b.js"]
     rfl rfl (by decide) rfl,
   bulk_expansion_preserves_search_order.2.2
     { simpleEnv with findFilesRaw := fun _ _ => ["/w/b.js", "/w/a.js"] }
     "/w" ⟨"rename", { source := some "*.js", target := some "**/*.ts" }⟩
     "*.js" "**/*.ts" ["/w/a.js", "/w/b.js"]
     (Or.inl rfl) rfl rfl (by decide) rfl⟩

end FileAxiom

namespace FileAxiom

/-- A character list containing a non-whitespace character is not
whitespace-only. -/
theorem all_whitespace_false_of_contains (l : List Char) (c : Char)
    (hc : c.isWhitespace = false) (hmem : c ∈ l) :
    l.all Char.isWhitespace = false := by
  rw [Bool.eq_false_iff]
  intro hall
  exact absurd (List.all_eq_true.mp hall c hmem) (by simp [hc])

/-- A pattern containing `*` or `?` is not blank, so it never triggers
`findFiles`' `INVALID_INPUT` branch. -/
theorem jsIsBlank_false_of_wildcard (p : String)
    (h : (jsIncludesChar p '*' || jsIncludesChar p '?') = true) :
    jsIsBlank p = false := by
  unfold jsIsBlank
  have h' : p.data.contains '*' = true ∨ p.data.contains '?' = true := by
    simpa [jsIncludesChar] using h
  rcases h' with h1 | h1
  · exact all_whitespace_false_of_contains p.data '*' (by decide)
      (List.mem_of_elem_eq_true h1)
  · exact all_whitespace_false_of_contains p.data '?' (by decide)
      (List.mem_of_elem_eq_true h1)

/-- On a non-blank pattern, a `findFiles` error can only be
`NO_WORKSPACE`. -/
theorem findFiles_error_char (env : Env) (p : String) (n : Nat)
    (e : FileAxiomError) (hb : jsIsBlank p = false)
    (h : findFiles env p n = .error e) : e.code = .NO_WORKSPACE := by
  unfold findFiles at h
  split at h
  · rename_i hcond
    rw [hb] at hcond
    simp at hcond
  · split at h
    · injection h with h'
      rw [← h']
    · simp at h

/-- Errors raised inside the wildcard rename/move/duplicate expansion
loop are raw `TypeError`s, never typed `FileAxiomError`s. -/
theorem expandMatches_error_other (env : Env) (root ty source : String)
    (target : Option String) (files : List String) (e : JSError)
    (h : expandMatches env root ty source target files = .error e) :
    ∃ m, e = .other m := by
  induction files with
  | nil => simp [expandMatches] at h
  | cons uri rest ih =>
    unfold expandMatches at h
    simp only [] at h
    rcases hjt : jsTransformTarget target (env.asRelativePath uri) source with e2 | newTarget
    · rw [hjt] at h
      injection h with h'
      subst h'
      unfold jsTransformTarget at hjt
      split at hjt
      · simp at hjt
      · split at hjt
        · injection hjt with h''
          exact ⟨_, h''.symm⟩
        · simp at hjt
    · rw [hjt] at h
      rcases hrest : expandMatches env root ty source target rest with e3 | tail
      · rw [hrest] at h
        injection h with h'
        subst h'
        exact ih hrest
      · rw [hrest] at h
        simp at h

/-- An error thrown while expanding one action is never `INVALID_INPUT`:
the only `findFiles` calls carry wildcard (hence non-blank) patterns,
and every other throw is a raw `TypeError`. -/
theorem expandOne_error_not_invalid_input (env : Env) (root : String)
    (a : BulkAction) (e : JSError) (h : expandOne env root a = .error e) :
    ∀ msg, e ≠ .axiomErr ⟨msg, .INVALID_INPUT⟩ := by
  intro msg heq
  subst heq
  unfold expandOne at h
  split at h
  · simp only [] at h
    split at h
    · rename_i hwild
      rcases hff : findFiles env (a.params.path.getD "") 1000 with e2 | files
      · rw [hff] at h
        injection h with h'
        have hb := jsIsBlank_false_of_wildcard _ hwild
        have hcode := findFiles_error_char env _ 1000 e2 hb hff
        injection h' with h''
        rw [h''] at hcode
        simp at hcode
      · rw [hff] at h
        simp at h
    · simp at h
  · split at h
    · split at h
      · simp at h
      · rename_i source hsrc
        split at h
        · rename_i hwild
          rcases hff : findFiles env source 1000 with e2 | files
          · rw [hff] at h
            injection h with h'
            have hb := jsIsBlank_false_of_wildcard _ hwild
            have hcode := findFiles_error_char env _ 1000 e2 hb hff
            injection h' with h''
            rw [h''] at hcode
            simp at hcode
          · rw [hff] at h
            obtain ⟨m, hm⟩ := expandMatches_error_other env root a.type source
              a.params.target files _ h
            simp at hm
        · split at h
          · simp at h
          · simp at h
    · simp at h

/-- An error thrown during batch expansion is never `INVALID_INPUT`. -/
theorem expandActions_error_not_invalid_input (env : Env) (root : String)
    (actions : List BulkAction) (e : JSError)
    (h : expandActions env root actions = .error e) :
    ∀ msg, e ≠ .axiomErr ⟨msg, .INVALID_INPUT⟩ := by
  induction actions with
  | nil => simp [expandActions] at h
  | cons b rest ih =>
    unfold expandActions at h
    split at h
    · rename_i e1 h1
      injection h with h'
      subst h'
      exact expandOne_error_not_invalid_input env root b e1 h1
    · rename_i exp1 h1
      split at h
      · rename_i e2 h2
        injection h with h'
        subst h'
        exact ih h2
      · simp at h

/-- A target-check error is never `INVALID_INPUT`. -/
theorem validateTarget_error_not_invalid_input (env : Env) (a : ExpandedAction)
    (e : JSError) (h : validateTarget env a = some e) :
    ∀ msg, e ≠ .axiomErr ⟨msg, .INVALID_INPUT⟩ := by
  intro msg heq
  subst heq
  unfold validateTarget at h
  split at h
  · split at h
    · split at h
      · simp at h
      · simp at h
      · simp at h
    · simp at h
  · simp at h

/-- A Phase 2 per-action error is never `INVALID_INPUT`. -/
theorem validateOne_error_not_invalid_input (env : Env) (a : ExpandedAction)
    (e : JSError) (h : validateOne env a = some e) :
    ∀ msg, e ≠ .axiomErr ⟨msg, .INVALID_INPUT⟩ := by
  unfold validateOne at h
  split at h
  · split at h
    · exact validateTarget_error_not_invalid_input env a e h
    · intro msg heq
      subst heq
      simp at h
    · intro msg heq
      subst heq
      simp at h
  · exact validateTarget_error_not_invalid_input env a e h

/-- A Phase 2 batch error is never `INVALID_INPUT`. -/
theorem validateActions_error_not_invalid_input (env : Env)
    (exp : List ExpandedAction) (e : JSError)
    (h : validateActions env exp = some e) :
    ∀ msg, e ≠ .axiomErr ⟨msg, .INVALID_INPUT⟩ := by
  induction exp with
  | nil => simp [validateActions] at h
  | cons a rest ih =>
    unfold validateActions at h
    split at h
    · rename_i e1 h1
      injection h with h'
      subst h'
      exact validateOne_error_not_invalid_input env a e1 h1
    · exact ih h

end FileAxiom

namespace FileAxiom

/-- C8, amended: `performBulkOperations` itself never raises
`INVALID_INPUT` — for *any* environment and batch, the thrown error is
never of that kind (`findFiles` is only ever called with
wildcard-containing, hence non-blank, patterns, and every other throw
carries a different code).  `INVALID_INPUT` is `findFiles`' own
pre-mutation error for blank queries; actions with an empty pattern or a
malformed type are skipped during expansion, and a batch consisting only
of such actions fails — still typed and with no mutation — with
`FILE_NOT_FOUND`. -/
theorem bulk_never_raises_invalid_input :
    (∀ (env : Env) (actions : List BulkAction) (msg : String),
       (performBulkOperations env actions).1 ≠
         .error (.axiomErr ⟨msg, .INVALID_INPUT⟩)) ∧
    (∀ (env : Env) (pattern : String) (maxResults : Nat), jsIsBlank pattern = true →
       findFiles env pattern maxResults =
         .error ⟨"Search pattern must not be empty.", .INVALID_INPUT⟩) ∧
    (∀ (env : Env) (actions : List BulkAction) (root : String) (rest : List String),
       env.isTrusted = true → env.workspaceFolders = root :: rest →
       (∀ a ∈ actions, isSkippedAction a = true) →
       (performBulkOperations env actions).2 = [] ∧
       ∃ msg, (performBulkOperations env actions).1 =
         .error (.axiomErr ⟨msg, .FILE_NOT_FOUND⟩)) := by
  refine ⟨?_, ?_, ?_⟩
  · intro env actions msg heq
    unfold performBulkOperations at heq
    split at heq
    · simp at heq
    · split at heq
      · simp at heq
      · split at heq
        · rename_i e hexp
          simp only [] at heq
          injection heq with h'
          exact expandActions_error_not_invalid_input env _ actions e hexp msg h'
        · rename_i exp hexp
          split at heq
          · simp at heq
          · split at heq
            · rename_i e hval
              simp only [] at heq
              injection heq with h'
              exact validateActions_error_not_invalid_input env exp e hval msg h'
            · split at heq
              · simp at heq
              · simp at heq
  · intro env pattern maxResults h
    simp [findFiles, h]
  · intro env actions root rest ht hw hskip
    have hexp := expandActions_skipped env root actions hskip
    have hmain : performBulkOperations env actions =
        (.error (.axiomErr ⟨"No files matched the specified patterns.",
          .FILE_NOT_FOUND⟩), []) := by
      simp [performBulkOperations, ht, hw, hexp]
    rw [hmain]
    exact ⟨rfl, "No files matched the specified patterns.", rfl⟩

/-- Witness for C8's amended theorem: a wildcard-delete batch never
yields `INVALID_INPUT`; `findFiles` does on a blank query; a batch of an
empty-pattern delete and an unknown-type action fails `FILE_NOT_FOUND`
with no mutation. -/
theorem bulk_never_raises_invalid_input_witness :
    (performBulkOperations simpleEnv [⟨"delete", { path := some "*.log" }⟩]).1 ≠
      .error (.axiomErr ⟨"Search pattern must not be empty.", .INVALID_INPUT⟩) ∧
    findFiles simpleEnv "  " 100 =
      .error ⟨"Search pattern must not be empty.", .INVALID_INPUT⟩ ∧
    ((performBulkOperations simpleEnv
        [⟨"delete", { path := some "" }⟩, ⟨"copy", { path := some "a" }⟩]).2 = [] ∧
     ∃ msg, (performBulkOperations simpleEnv
        [⟨"delete", { path := some "" }⟩, ⟨"copy", { path := some "a" }⟩]).1 =
       .error (.axiomErr ⟨msg, .FILE_NOT_FOUND⟩)) :=
  ⟨bulk_never_raises_invalid_input.1 simpleEnv [⟨"delete", { path := some "*.log" }⟩]
     "Search pattern must not be empty.",
   bulk_never_raises_invalid_input.2.1 simpleEnv "  " 100 (by decide),
   bulk_never_raises_invalid_input.2.2 simpleEnv
     [⟨"delete", { path := some "" }⟩, ⟨"copy", { path := some "a" }⟩]
     "/w" [] rfl rfl (by decide)⟩

end FileAxiom
